import Mathlib

/-!
Shallow embedding of `examples/training/train_new_entity_type.py`.

The script trains a new entity type (`ANIMAL`) on top of a spaCy pipeline.
All substantive NLP logic lives in the external library (spaCy, `random`,
`pathlib`, `plac`); this file embeds the script's own control flow, data and
side effects, modelling the external calls by explicit state
(PRNG state, a filesystem `World`, a pipeline record) and, for error
propagation, by a fallible operation record in the `Except` monad.
-/

namespace SpacyEx

/-- An entity span as written in the script: `(start, end, label)`. -/
abbrev Span := Nat × Nat × String

/-- A training example: raw text paired with its entity offsets. -/
abbrev Ex := String × List Span

/-- Model of a `pathlib.Path` object: its textual form. -/
structure Path where
  path : String
deriving DecidableEq, Repr

/-- Pipeline components appended by `main`: `TokenVectorEncoder(nlp.vocab)`
and `NeuralEntityRecognizer(nlp.vocab)`; the recognizer carries the labels
added through `add_label`. -/
inductive Component where
  | tokenVectorEncoder : Component
  | neuralEntityRecognizer : List String → Component
deriving DecidableEq, Repr

/-- Model of the spaCy `Language` object as the script observes it:
its language code, its `pipeline` list, and `meta['name']`. -/
structure Nlp where
  lang : String
  pipeline : List Component
  meta_name : Option String
deriving DecidableEq, Repr

/-- Model of the filesystem as the script touches it: the set of existing
directories and the pipelines saved with `to_disk`, newest first. -/
structure World where
  dirs : List Path
  saved : List (Path × Nlp)
deriving DecidableEq, Repr

/-- Model of `random.seed`: the PRNG state set by seeding. -/
def seedState (n : Nat) : Nat := n

/-- One step of the modelled PRNG (a linear congruential generator standing
in for the stdlib Mersenne twister). -/
def lcgNext (s : Nat) : Nat := (s * 1103515245 + 12345) % 2 ^ 31

/-- Model of `random.shuffle`, list part: repeatedly draw a pseudo-random
index from the current state and move that element to the front of the
remainder (Fisher–Yates by selection). `fuel` is the list length. -/
def shuffleL {α : Type} : Nat → List α → Nat → List α
  | 0, _, _ => []
  | _ + 1, [], _ => []
  | fuel + 1, x :: xs, s =>
    (x :: xs).get ⟨s % (xs.length + 1), Nat.mod_lt _ (Nat.succ_pos _)⟩ ::
      shuffleL fuel ((x :: xs).eraseIdx (s % (xs.length + 1))) (lcgNext s)

/-- Model of `random.shuffle`: the shuffled list and the advanced PRNG
state (one step per element drawn). -/
def shuffle {α : Type} (l : List α) (s : Nat) : List α × Nat :=
  (shuffleL l.length l s, lcgNext^[l.length] s)

/-- `get_gold_parses` (lines 42–48): shuffles the caller's `train_data`
list in place, then yields one `(doc, gold)` pair per example.  A `doc` is
modelled by its raw text (`tokenizer(raw_text)` tokenizes but keeps the
text) and a `GoldParse` by the entity offsets handed to it, so the yielded
pairs coincide with the shuffled examples.  Returns the yielded pairs, the
list as left mutated, and the PRNG state. -/
def get_gold_parses (train_data : List Ex) (r : Nat) :
    List Ex × List Ex × Nat :=
  ((shuffle train_data r).1, (shuffle train_data r).1, (shuffle train_data r).2)

/-- Recursion worker for `minibatch`; the fuel is an upper bound on the
number of chunks (the input length suffices) and only serves structural
termination. -/
def minibatchGo {α : Type} (size fuel0 : Nat) (items : List α) : List (List α) :=
  match fuel0, items with
  | _, [] => []
  | 0, _ :: _ => []
  | fuel + 1, x :: xs =>
    (x :: xs.take (size - 1)) :: minibatchGo size fuel (xs.drop (size - 1))

/-- `minibatch(items, size=n)` from `spacy.gold`: splits the stream into
consecutive chunks of at most `size` items. -/
def minibatch {α : Type} (size : Nat) (l : List α) : List (List α) :=
  minibatchGo size l.length l

/-- Trace of one iteration of the `for itn in range(50)` loop body
(lines 56–61): the shuffled order used, the batches passed to
`nlp.update`, and the contents of the `losses` dict when printed at the
end of the epoch (one entry per `update` call, accumulated from the empty
dict the epoch started with). -/
structure EpochTrace where
  order : List Ex
  batches : List (List Ex)
  losses : List (List Ex)
deriving DecidableEq, Repr

/-- One epoch (lines 56–61): `losses = {}`, shuffle via
`get_gold_parses`, batch with `minibatch(..., size=3)`, call `nlp.update`
once per batch accumulating into `losses`.  Returns the trace, the
mutated example list and the PRNG state. -/
def runEpoch (d : List Ex) (r : Nat) : EpochTrace × List Ex × Nat :=
  let (_, d', r') := get_gold_parses d r
  let batches := minibatch 3 d'
  (⟨d', batches, batches.foldl (fun acc b => acc ++ [b]) []⟩, d', r')

/-- The training loop `for itn in range(50)` (lines 55–61), generalized
over the epoch count: runs the epochs in order, threading the example
list and the PRNG state. -/
def runEpochs : Nat → List Ex → Nat → List EpochTrace × List Ex × Nat
  | 0, d, r => ([], d, r)
  | n + 1, d, r =>
    let (t, d', r') := runEpoch d r
    let (ts, d'', r'') := runEpochs n d' r'
    (t :: ts, d'', r'')

/-- Result of `train_ner` as its caller observes it: the pipeline object
(mutated in place), the training-data list (mutated in place by
`get_gold_parses`), the filesystem, the per-epoch traces, and the PRNG
state. -/
structure TrainResult where
  nlp : Nlp
  train_data : List Ex
  world : World
  epochs : List EpochTrace
  rng : Nat
deriving DecidableEq, Repr

/-- `train_ner` (lines 51–66).  `r0` is the ambient PRNG state at entry;
`random.seed(0)` discards it.  `nlp.begin_training(lambda: [])` has no
effect the script observes and is modelled as a no-op.  After the fifty
epochs: if `output_dir` is falsy (`None`) return without touching the
filesystem; otherwise create the directory when missing and write the
pipeline into it with `nlp.to_disk`. -/
def train_ner (nlp : Nlp) (train_data : List Ex) (output_dir : Option Path)
    (w : World) (_r0 : Nat) : TrainResult :=
  let r := seedState 0
  let nlp1 : Nlp := { nlp with meta_name := some "en_ent_animal" }
  let (epochs, d', r') := runEpochs 50 train_data r
  match output_dir with
  | none => ⟨nlp1, d', w, epochs, r'⟩
  | some p =>
    let w1 : World := if p ∈ w.dirs then w else ⟨p :: w.dirs, w.saved⟩
    ⟨nlp1, d', ⟨w1.dirs, (p, nlp1) :: w1.saved⟩, epochs, r'⟩

/-- The `train_data` literal of `main` (lines 75–102), verbatim. -/
def train_data : List Ex :=
  [("Horses are too tall and they pretend to care about your feelings",
      [(0, 6, "ANIMAL")]),
    ("Do they bite?", []),
    ("horses are too tall and they pretend to care about your feelings",
      [(0, 6, "ANIMAL")]),
    ("horses pretend to care about your feelings",
      [(0, 6, "ANIMAL")]),
    ("they pretend to care about your feelings, those horses",
      [(48, 54, "ANIMAL")]),
    ("horses?",
      [(0, 6, "ANIMAL")])]

/-- Model of `spacy.blank(model_name)`: a pipeline for the given language
code with no pipeline components and no metadata name yet. -/
def spacy_blank (model_name : String) : Nlp :=
  ⟨model_name, [], none⟩

/-- Model of `spacy.load(path)`: read back the pipeline most recently
saved at that directory, if any. -/
def spacy_load (p : Path) (w : World) : Option Nlp :=
  (w.saved.find? (fun q => decide (q.1 = p))).map (fun q => q.2)

/-- `add_label` on a pipeline component: the entity recognizer appends the
label to its label list; other components ignore it. -/
def add_label (c : Component) (label : String) : Component :=
  match c with
  | .neuralEntityRecognizer ls => .neuralEntityRecognizer (ls ++ [label])
  | c => c

/-- `nlp.pipeline[-1]` mutation: apply `f` to the last element. -/
def setLast (p : List Component) (f : Component → Component) : List Component :=
  match p with
  | [] => []
  | [c] => [f c]
  | c :: cs => c :: setLast cs f

/-- Lines 70–105 of `main`: create the blank pipeline for `model_name`,
append the token-vector encoder then the entity recognizer, and call
`nlp.pipeline[-1].add_label('ANIMAL')`. -/
def setupNlp (model_name : String) : Nlp :=
  let nlp := spacy_blank model_name
  let nlp := { nlp with pipeline := nlp.pipeline ++ [Component.tokenVectorEncoder] }
  let nlp := { nlp with pipeline := nlp.pipeline ++ [Component.neuralEntityRecognizer []] }
  { nlp with pipeline := setLast nlp.pipeline (fun c => add_label c "ANIMAL") }

/-- The held-out sentence of lines 109 and 117. -/
def heldOutText : String := "Do you like horses?"

/-- What `main` does after reloading (lines 114–119): the reloaded
pipeline, the texts it was called on, and the `(ent.label_, ent.text)`
pairs printed for its entities. -/
structure ReloadTrace where
  nlp2 : Nlp
  inferred : List String
  printed : List (String × String)
deriving DecidableEq, Repr

/-- Result of `main` as observed from outside: the trained pipeline, the
filesystem, the training trace, the entity pairs printed from the
in-memory model (lines 108–113), and the reload trace when an output
directory was given (lines 114–119). -/
structure MainResult where
  nlp : Nlp
  world : World
  epochs : List EpochTrace
  printed1 : List (String × String)
  reload : Option ReloadTrace
deriving Repr

/-- `main` (lines 69–119).  `E nlp text` models the entities the (opaque,
statistically trained) pipeline finds in `text` — the script only
iterates over them and prints `(ent.label_, ent.text)`.  The output
directory string, when given, is converted to a `Path` object before any
use. -/
def main (E : Nlp → String → List (String × String)) (model_name : String)
    (output_directory : Option String) (w : World) (r0 : Nat) : MainResult :=
  let nlp := setupNlp model_name
  let outdir : Option Path := output_directory.map (fun s => ⟨s⟩)
  let tr := train_ner nlp train_data outdir w r0
  let printed1 := E tr.nlp heldOutText
  let reload : Option ReloadTrace :=
    match outdir with
    | none => none
    | some p =>
      match spacy_load p tr.world with
      | some nlp2 => some ⟨nlp2, [heldOutText], E nlp2 heldOutText⟩
      | none => none
  ⟨tr.nlp, tr.world, tr.epochs, printed1, reload⟩

/-- Model of `plac.call(main)` (lines 122–124): `plac` derives the CLI
from `main`'s signature — one required positional `model_name` and one
optional `output_directory` defaulting to `None`; any other arity is a
usage error. -/
def cli (E : Nlp → String → List (String × String)) (args : List String)
    (w : World) (r0 : Nat) : Option MainResult :=
  match args with
  | [m] => some (main E m none w r0)
  | [m, od] => some (main E m (some od) w r0)
  | _ => none

/-! ### Fallible view for error propagation

The script wraps no library call in any handler, so an exception raised by
the library surfaces unchanged from `main`.  To state this, the same
control flow is embedded once more in the `Except` monad over an abstract
interface whose operations may each raise. -/

/-- Fallible interface to the external library (and `pathlib.mkdir`):
each operation the script calls may raise an exception of the abstract
type `ε`. -/
structure Lib (ε : Type) where
  blank : String → Except ε Nlp
  begin_training : Except ε Unit
  make_doc : String → Except ε String
  gold_parse : String → List Span → Except ε (List Span)
  update : List String → List (List Span) → Except ε Unit
  mkdir : Path → Except ε Unit
  to_disk : Path → Except ε Unit
  infer : Nlp → String → Except ε (List (String × String))
  load : Path → Except ε Nlp

/-- `get_gold_parses` under the fallible interface: shuffle, then build
one `(doc, gold)` pair per example through the library, propagating any
exception unchanged. -/
def get_gold_parsesE {ε : Type} (lib : Lib ε) (d : List Ex) (r : Nat) :
    Except ε (List Ex × List Ex × Nat) := do
  let pairs ← (shuffle d r).1.mapM (fun ex => do
    let doc ← lib.make_doc ex.1
    let gold ← lib.gold_parse doc ex.2
    pure (doc, gold))
  pure (pairs, (shuffle d r).1, (shuffle d r).2)

/-- One loop iteration (lines 56–61) under the fallible interface. -/
def runEpochE {ε : Type} (lib : Lib ε) (d : List Ex) (r : Nat) :
    Except ε (List Ex × Nat) := do
  let (pairs, d', r') ← get_gold_parsesE lib d r
  (minibatch 3 pairs).forM (fun batch =>
    lib.update (batch.map (fun q => q.1)) (batch.map (fun q => q.2)))
  pure (d', r')

/-- The `range(50)` loop under the fallible interface. -/
def runEpochsE {ε : Type} (lib : Lib ε) :
    Nat → List Ex → Nat → Except ε (List Ex × Nat)
  | 0, d, r => pure (d, r)
  | n + 1, d, r => do
    let (d', r') ← runEpochE lib d r
    runEpochsE lib n d' r'

/-- `train_ner` under the fallible interface: no call is wrapped in a
handler, so the first exception any operation raises is returned as is. -/
def train_nerE {ε : Type} (lib : Lib ε) (nlp : Nlp) (d : List Ex)
    (output_dir : Option Path) (w : World) (_r0 : Nat) :
    Except ε (Nlp × World) := do
  let r := seedState 0
  let _optimizer ← lib.begin_training
  let nlp1 : Nlp := { nlp with meta_name := some "en_ent_animal" }
  let _ ← runEpochsE lib 50 d r
  match output_dir with
  | none => pure (nlp1, w)
  | some p =>
    if p ∈ w.dirs then do
      lib.to_disk p
      pure (nlp1, ⟨w.dirs, (p, nlp1) :: w.saved⟩)
    else do
      lib.mkdir p
      lib.to_disk p
      pure (nlp1, ⟨p :: w.dirs, (p, nlp1) :: w.saved⟩)

/-- `main` under the fallible interface (same control flow as `main`,
every library call through `lib`).  Returns the trained pipeline, the
filesystem, the first inference's entities, and the reload inference's
pipeline and entities when an output directory was given. -/
def mainE {ε : Type} (lib : Lib ε) (m : String) (od : Option String)
    (w : World) (r0 : Nat) :
    Except ε (Nlp × World × List (String × String) ×
      Option (Nlp × List (String × String))) := do
  let nlp0 ← lib.blank m
  let nlpA : Nlp := { nlp0 with pipeline := nlp0.pipeline ++ [Component.tokenVectorEncoder] }
  let nlpB : Nlp := { nlpA with pipeline := nlpA.pipeline ++ [Component.neuralEntityRecognizer []] }
  let nlpC : Nlp := { nlpB with pipeline := setLast nlpB.pipeline (fun c => add_label c "ANIMAL") }
  let (nlpD, w1) ← train_nerE lib nlpC train_data (od.map (fun s => ⟨s⟩)) w r0
  let ents1 ← lib.infer nlpD heldOutText
  match od with
  | none => pure (nlpD, w1, ents1, none)
  | some s => do
    let nlp2 ← lib.load ⟨s⟩
    let ents2 ← lib.infer nlp2 heldOutText
    pure (nlpD, w1, ents1, some (nlp2, ents2))

/-- The all-succeeding instantiation of the fallible interface: the
library behaves as in the infallible embedding and raises nothing. -/
def okLib (ε : Type) : Lib ε where
  blank := fun m => .ok (spacy_blank m)
  begin_training := .ok ()
  make_doc := fun t => .ok t
  gold_parse := fun _ offs => .ok offs
  update := fun _ _ => .ok ()
  mkdir := fun _ => .ok ()
  to_disk := fun _ => .ok ()
  infer := fun _ _ => .ok []
  load := fun _ => .ok (spacy_blank "en")

/-! ### Helper lemmas -/

/-- Folding snoc over a list from an accumulator appends the list. -/
theorem foldl_snoc {α : Type} :
    ∀ (l : List α) (acc : List α),
      l.foldl (fun a b => a ++ [b]) acc = acc ++ l := by
  intro l
  induction l with
  | nil => intro acc; simp
  | cons x xs ih => intro acc; simp [ih]

/-- The selection shuffle returns a permutation of its input. -/
theorem shuffleL_perm {α : Type} [DecidableEq α] :
    ∀ (fuel : Nat) (l : List α) (s : Nat), l.length ≤ fuel →
      (shuffleL fuel l s).Perm l := by
  intro fuel
  induction fuel with
  | zero =>
    intro l s h
    have hl : l = [] := List.length_eq_zero.mp (Nat.le_zero.mp h)
    subst hl
    simp [shuffleL]
  | succ fuel ih =>
    intro l s h
    match l with
    | [] => simp [shuffleL]
    | x :: xs =>
      have hi : s % (xs.length + 1) < (x :: xs).length :=
        Nat.mod_lt _ (Nat.succ_pos _)
      have hlen : ((x :: xs).eraseIdx (s % (xs.length + 1))).length ≤ fuel := by
        have := List.length_eraseIdx_add_one hi
        simp only [List.length_cons] at h this
        omega
      have hrest := ih ((x :: xs).eraseIdx (s % (xs.length + 1))) (lcgNext s) hlen
      have h1 : ((x :: xs).erase ((x :: xs).get ⟨s % (xs.length + 1), hi⟩)).Perm
          ((x :: xs).eraseIdx (s % (xs.length + 1))) := by
        simpa [List.get_eq_getElem] using List.erase_getElem hi
      have h2 : (x :: xs).Perm
          ((x :: xs).get ⟨s % (xs.length + 1), hi⟩ ::
            (x :: xs).erase ((x :: xs).get ⟨s % (xs.length + 1), hi⟩)) :=
        List.perm_cons_erase (List.get_mem _ _ hi)
      have hstep : shuffleL (fuel + 1) (x :: xs) s =
          (x :: xs).get ⟨s % (xs.length + 1), hi⟩ ::
            shuffleL fuel ((x :: xs).eraseIdx (s % (xs.length + 1))) (lcgNext s) := by
        simp [shuffleL]
      rw [hstep]
      exact ((hrest.cons _).trans ((h1.symm.cons _).trans h2.symm))

/-- `shuffle` returns a permutation of its input. -/
theorem shuffle_perm {α : Type} [DecidableEq α] (l : List α) (s : Nat) :
    ((shuffle l s).1).Perm l :=
  shuffleL_perm l.length l s (Nat.le_refl _)

/-- Unfolding one iteration of the training loop. -/
theorem runEpochs_succ (n : Nat) (d : List Ex) (r : Nat) :
    runEpochs (n + 1) d r =
      ((⟨(shuffle d r).1, minibatch 3 (shuffle d r).1,
          (minibatch 3 (shuffle d r).1).foldl (fun acc b => acc ++ [b]) []⟩ : EpochTrace) ::
          (runEpochs n (shuffle d r).1 (shuffle d r).2).1,
        (runEpochs n (shuffle d r).1 (shuffle d r).2).2) := rfl

/-- The example list threaded through the training loop stays a
permutation of the original. -/
theorem runEpochs_snd_perm :
    ∀ (n : Nat) (d : List Ex) (r : Nat), ((runEpochs n d r).2.1).Perm d := by
  intro n
  induction n with
  | zero => intro d r; simp [runEpochs]
  | succ n ih =>
    intro d r
    rw [runEpochs_succ]
    exact (ih (shuffle d r).1 (shuffle d r).2).trans (shuffle_perm d r)

/-- The training loop runs exactly `n` epochs. -/
theorem runEpochs_length :
    ∀ (n : Nat) (d : List Ex) (r : Nat), (runEpochs n d r).1.length = n := by
  intro n
  induction n with
  | zero => intro d r; simp [runEpochs]
  | succ n ih => intro d r; rw [runEpochs_succ]; simp [ih]

/-- Every epoch trace the loop emits shuffles the incoming example list,
batches it with `minibatch 3`, and accumulates `losses` from empty. -/
theorem runEpochs_mem :
    ∀ (n : Nat) (d : List Ex) (r : Nat), ∀ ep ∈ (runEpochs n d r).1,
      ep.order.Perm d ∧ ep.batches = minibatch 3 ep.order ∧
        ep.losses = ep.batches := by
  intro n
  induction n with
  | zero => intro d r ep h; simp [runEpochs] at h
  | succ n ih =>
    intro d r ep h
    rw [runEpochs_succ] at h
    rcases List.mem_cons.mp h with h | h
    · subst h
      exact ⟨shuffle_perm d r, rfl, foldl_snoc _ []⟩
    · have := ih (shuffle d r).1 (shuffle d r).2 ep h
      exact ⟨this.1.trans (shuffle_perm d r), this.2⟩

/-- `train_ner`'s epoch traces depend only on the training data and the
seeded PRNG state. -/
theorem train_ner_epochs (nlp : Nlp) (d : List Ex) (od : Option Path)
    (w : World) (r0 : Nat) :
    (train_ner nlp d od w r0).epochs = (runEpochs 50 d (seedState 0)).1 := by
  cases od <;> rfl

/-- The training-data list as left mutated by `train_ner`. -/
theorem train_ner_data (nlp : Nlp) (d : List Ex) (od : Option Path)
    (w : World) (r0 : Nat) :
    (train_ner nlp d od w r0).train_data = (runEpochs 50 d (seedState 0)).2.1 := by
  cases od <;> rfl

/-- The pipeline object `train_ner` hands back is the input pipeline with
its metadata name set. -/
theorem train_ner_nlp (nlp : Nlp) (d : List Ex) (od : Option Path)
    (w : World) (r0 : Nat) :
    (train_ner nlp d od w r0).nlp = { nlp with meta_name := some "en_ent_animal" } := by
  cases od <;> rfl

/-- When 3 divides the input length, every chunk `minibatchGo` produces
has exactly three elements. -/
theorem minibatchGo3_batch_len {α : Type} :
    ∀ (fuel : Nat) (l : List α), l.length ≤ fuel → l.length % 3 = 0 →
      ∀ b ∈ minibatchGo 3 fuel l, b.length = 3 := by
  intro fuel
  induction fuel with
  | zero =>
    intro l hle _ b hb
    have hl : l = [] := List.length_eq_zero.mp (Nat.le_zero.mp hle)
    subst hl
    simp [minibatchGo] at hb
  | succ fuel ih =>
    intro l hle hmod b hb
    match l with
    | [] => simp [minibatchGo] at hb
    | x :: xs =>
      have hstep : minibatchGo 3 (fuel + 1) (x :: xs) =
          (x :: xs.take 2) :: minibatchGo 3 fuel (xs.drop 2) := rfl
      rw [hstep] at hb
      simp only [List.length_cons] at hle hmod
      rcases List.mem_cons.mp hb with rfl | hb2
      · have hxs : 2 ≤ xs.length := by omega
        simp only [List.length_cons, List.length_take]
        omega
      · refine ih (xs.drop 2) ?_ ?_ b hb2 <;> simp only [List.length_drop] <;> omega

/-- `minibatch 3` on a list whose length 3 divides yields only batches of
exactly three elements. -/
theorem minibatch3_all_len3 {α : Type} (l : List α) (h : l.length % 3 = 0) :
    ∀ b ∈ minibatch 3 l, b.length = 3 :=
  minibatchGo3_batch_len l.length l (Nat.le_refl _) h

/-- The filesystem `train_ner` leaves behind when a directory is given:
the directory is created when missing, and the pipeline (with its metadata
name set) is saved into it. -/
theorem train_ner_world_some (nlp : Nlp) (d : List Ex) (w : World) (r0 : Nat)
    (p : Path) :
    (train_ner nlp d (some p) w r0).world =
      ⟨(if p ∈ w.dirs then w else ⟨p :: w.dirs, w.saved⟩).dirs,
        (p, { nlp with meta_name := some "en_ent_animal" }) ::
          (if p ∈ w.dirs then w else ⟨p :: w.dirs, w.saved⟩).saved⟩ := rfl

/-- Loading from the directory a pipeline was just saved into returns that
pipeline. -/
theorem spacy_load_after_save (p : Path) (nlp1 : Nlp) (dirs : List Path)
    (rest : List (Path × Nlp)) :
    spacy_load p ⟨dirs, (p, nlp1) :: rest⟩ = some nlp1 := by
  show (List.find? (fun q => decide (q.1 = p)) ((p, nlp1) :: rest)).map (fun q => q.2) = some nlp1
  rw [List.find?_cons_of_pos _ (by simp)]
  rfl

/-! ### The claims -/

/-- C1: every run of `train_ner` executes exactly fifty epochs; each epoch
shuffles the example set (the order presented is the loop's shuffle of the
list it received, in particular a permutation of the training data),
presents it to `nlp.update` in batches of size 3, and resets the per-epoch
loss dictionary at the start of each epoch, so at epoch end the dictionary
holds exactly that epoch's update calls. -/
theorem C1_training_loop (nlp : Nlp) (od : Option Path) (w : World) (r0 : Nat) :
    (train_ner nlp train_data od w r0).epochs.length = 50 ∧
    (train_ner nlp train_data od w r0).epochs = (runEpochs 50 train_data (seedState 0)).1 ∧
    ∀ ep, ep ∈ (train_ner nlp train_data od w r0).epochs →
      ep.order.Perm train_data ∧
      ep.batches = minibatch 3 ep.order ∧
      (∀ b, b ∈ ep.batches → b.length = 3) ∧
      ep.losses = ep.batches := by
  have he := train_ner_epochs nlp train_data od w r0
  refine ⟨by rw [he]; exact runEpochs_length 50 train_data (seedState 0), he, ?_⟩
  rw [he]
  intro ep hep
  have h1 := runEpochs_mem 50 train_data (seedState 0) ep hep
  have hlen : ep.order.length = 6 := by
    have := h1.1.length_eq
    simpa using this
  refine ⟨h1.1, h1.2.1, ?_, h1.2.2⟩
  intro b hb
  exact minibatch3_all_len3 ep.order (by omega) b (h1.2.1 ▸ hb)

/-- C1 witness: a concrete run — fifty epochs, the first epoch's batches
are the `minibatch 3` chunks of its shuffled order, and its first batch
has size 3. -/
theorem C1_training_loop_witness :
    (train_ner (spacy_blank "en") train_data none ⟨[], []⟩ 0).epochs.length = 50 ∧
    ((train_ner (spacy_blank "en") train_data none ⟨[], []⟩ 0).epochs.getD 0 ⟨[], [], []⟩).batches =
      minibatch 3
        ((train_ner (spacy_blank "en") train_data none ⟨[], []⟩ 0).epochs.getD 0 ⟨[], [], []⟩).order ∧
    (((train_ner (spacy_blank "en") train_data none ⟨[], []⟩ 0).epochs.getD 0
        ⟨[], [], []⟩).batches.getD 0 []).length = 3 := by
  have h := C1_training_loop (spacy_blank "en") none ⟨[], []⟩ 0
  have hm : (train_ner (spacy_blank "en") train_data none ⟨[], []⟩ 0).epochs.getD 0 ⟨[], [], []⟩ ∈
      (train_ner (spacy_blank "en") train_data none ⟨[], []⟩ 0).epochs := by decide
  have hb : ((train_ner (spacy_blank "en") train_data none ⟨[], []⟩ 0).epochs.getD 0
        ⟨[], [], []⟩).batches.getD 0 [] ∈
      ((train_ner (spacy_blank "en") train_data none ⟨[], []⟩ 0).epochs.getD 0
        ⟨[], [], []⟩).batches := by decide
  exact ⟨h.1, (h.2.2 _ hm).2.1, (h.2.2 _ hm).2.2.1 _ hb⟩

/-- C2 counterexample: the training set does not have exactly four
entries — `train_data` lists six text/span pairs, so the claim as stated
is false. -/
theorem C2_counterexample :
    ¬ (train_data.length = 4 ∧
        train_data.all (fun p => p.2.all (fun sp => sp.2.2 == "ANIMAL")) = true) := by
  decide

/-- C2 amended: the training set consists of exactly six hand-written
training sentences, each a raw text string paired with a list of
character-offset entity spans `(start, end, label)`, and the label string
is `ANIMAL` on every span. -/
theorem C2_amended_six_examples :
    train_data.length = 6 ∧
    train_data.all (fun p => p.2.all (fun sp => sp.2.2 == "ANIMAL")) = true := by
  decide

/-- C3: `main` constructs a blank pipeline for the given language code,
appends the token-vector encoder then the entity recognizer (the
recognizer being the last pipeline element), registers exactly the one
label `ANIMAL` on it, and hands exactly this pipeline to `train_ner`. -/
theorem C3_pipeline_setup (E : Nlp → String → List (String × String))
    (m : String) (od : Option String) (w : World) (r0 : Nat) :
    (setupNlp m).lang = m ∧
    (setupNlp m).pipeline =
      [Component.tokenVectorEncoder, Component.neuralEntityRecognizer ["ANIMAL"]] ∧
    (setupNlp m).pipeline.getLast? = some (Component.neuralEntityRecognizer ["ANIMAL"]) ∧
    (main E m od w r0).nlp =
      (train_ner (setupNlp m) train_data (od.map (fun s => ⟨s⟩)) w r0).nlp :=
  ⟨rfl, rfl, rfl, rfl⟩

/-- C4: persistence is optional — with no output directory `train_ner`
returns after the loop leaving the filesystem untouched; with one, the
directory is created first when it does not exist, and the pipeline is
written into it either way. -/
theorem C4_optional_persistence (nlp : Nlp) (d : List Ex) (w : World)
    (r0 : Nat) (p : Path) :
    (train_ner nlp d none w r0).world = w ∧
    (p ∉ w.dirs →
      (train_ner nlp d (some p) w r0).world =
        ⟨p :: w.dirs,
          (p, { nlp with meta_name := some "en_ent_animal" }) :: w.saved⟩) ∧
    (p ∈ w.dirs →
      (train_ner nlp d (some p) w r0).world =
        ⟨w.dirs,
          (p, { nlp with meta_name := some "en_ent_animal" }) :: w.saved⟩) := by
  refine ⟨rfl, ?_, ?_⟩
  · intro hp
    rw [train_ner_world_some, if_neg hp]
  · intro hp
    rw [train_ner_world_some, if_pos hp]

/-- C4 witness: concrete runs — no directory leaves the world unchanged;
a missing directory is created; an existing one is reused. -/
theorem C4_optional_persistence_witness :
    (train_ner (spacy_blank "en") train_data none ⟨[], []⟩ 0).world = ⟨[], []⟩ ∧
    (train_ner (spacy_blank "en") train_data (some ⟨"out"⟩) ⟨[], []⟩ 0).world =
      ⟨[⟨"out"⟩],
        [(⟨"out"⟩, { spacy_blank "en" with meta_name := some "en_ent_animal" })]⟩ ∧
    (train_ner (spacy_blank "en") train_data (some ⟨"out"⟩) ⟨[⟨"out"⟩], []⟩ 0).world =
      ⟨[⟨"out"⟩],
        [(⟨"out"⟩, { spacy_blank "en" with meta_name := some "en_ent_animal" })]⟩ := by
  have h1 := C4_optional_persistence (spacy_blank "en") train_data ⟨[], []⟩ 0 ⟨"out"⟩
  have h2 := C4_optional_persistence (spacy_blank "en") train_data ⟨[⟨"out"⟩], []⟩ 0 ⟨"out"⟩
  exact ⟨h1.1, h1.2.1 (by decide), h2.2.2 (by decide)⟩

/-- C5: if and only if an output directory was supplied, `main` reloads
the pipeline from that directory — obtaining exactly the pipeline the run
saved there — and makes exactly one inference call on the held-out
sentence `Do you like horses?`, printing the label and text of each
entity the reloaded model finds. -/
theorem C5_reload_inference (E : Nlp → String → List (String × String))
    (m : String) (w : World) (r0 : Nat) :
    (main E m none w r0).reload = none ∧
    (∀ od : String,
      (main E m (some od) w r0).reload =
        some ⟨(main E m (some od) w r0).nlp, [heldOutText],
          E (main E m (some od) w r0).nlp heldOutText⟩) ∧
    heldOutText = "Do you like horses?" := by
  refine ⟨rfl, ?_, rfl⟩
  intro od
  have hload : spacy_load ⟨od⟩
      (train_ner (setupNlp m) train_data (some ⟨od⟩) w r0).world =
      some { setupNlp m with meta_name := some "en_ent_animal" } := by
    rw [train_ner_world_some]
    exact spacy_load_after_save _ _ _ _
  show (match spacy_load ⟨od⟩
      (train_ner (setupNlp m) train_data (some ⟨od⟩) w r0).world with
    | some nlp2 => some (⟨nlp2, [heldOutText], E nlp2 heldOutText⟩ : ReloadTrace)
    | none => none) =
    some ⟨(main E m (some od) w r0).nlp, [heldOutText],
      E (main E m (some od) w r0).nlp heldOutText⟩
  rw [hload]
  rfl

/-- C6: the CLI entry point (`plac.call(main)`) takes one required
model/language identifier and one optional output directory defaulting to
no persistence; other arities are usage errors; and a given output
directory string is converted to a `Path` object before use (the path the
pipeline is saved under is that `Path`). -/
theorem C6_cli_surface (E : Nlp → String → List (String × String))
    (m od : String) (w : World) (r0 : Nat) :
    cli E [m] w r0 = some (main E m none w r0) ∧
    cli E [m, od] w r0 = some (main E m (some od) w r0) ∧
    cli E [] w r0 = none ∧
    cli E [m, od, od] w r0 = none ∧
    (main E m (some od) w r0).world.saved.head?.map (fun q => q.1) =
      some (⟨od⟩ : Path) :=
  ⟨rfl, rfl, rfl, rfl, rfl⟩

/-- C7: the script performs no validation, retries, or recovery: whichever
library operation raises — pipeline construction, `begin_training`,
tokenization or `GoldParse` construction inside `get_gold_parses`,
`update` inside `train_ner`, `mkdir`, `to_disk`, inference, or
`spacy.load` — the exception propagates unchanged out of `main`; and when
nothing raises, the run completes. -/
theorem C7_errors_propagate (ε : Type) (e : ε) (m : String) (r0 : Nat) :
    mainE { okLib ε with blank := fun _ => .error e } m (some "out") ⟨[], []⟩ r0 = .error e ∧
    mainE { okLib ε with begin_training := .error e } m (some "out") ⟨[], []⟩ r0 = .error e ∧
    mainE { okLib ε with make_doc := fun _ => .error e } m (some "out") ⟨[], []⟩ r0 = .error e ∧
    mainE { okLib ε with gold_parse := fun _ _ => .error e } m (some "out") ⟨[], []⟩ r0 = .error e ∧
    mainE { okLib ε with update := fun _ _ => .error e } m (some "out") ⟨[], []⟩ r0 = .error e ∧
    mainE { okLib ε with mkdir := fun _ => .error e } m (some "out") ⟨[], []⟩ r0 = .error e ∧
    mainE { okLib ε with to_disk := fun _ => .error e } m (some "out") ⟨[], []⟩ r0 = .error e ∧
    mainE { okLib ε with infer := fun _ _ => .error e } m (some "out") ⟨[], []⟩ r0 = .error e ∧
    mainE { okLib ε with load := fun _ => .error e } m (some "out") ⟨[], []⟩ r0 = .error e ∧
    mainE (okLib ε) m (some "out") ⟨[], []⟩ r0 =
      .ok (⟨m, [Component.tokenVectorEncoder, Component.neuralEntityRecognizer ["ANIMAL"]],
            some "en_ent_animal"⟩,
          ⟨[⟨"out"⟩],
            [(⟨"out"⟩, ⟨m, [Component.tokenVectorEncoder,
                Component.neuralEntityRecognizer ["ANIMAL"]], some "en_ent_animal"⟩)]⟩,
          [], some (spacy_blank "en", [])) :=
  ⟨rfl, rfl, rfl, rfl, rfl, rfl, rfl, rfl, rfl, rfl⟩

/-- C8: `train_ner` seeds the PRNG with the fixed value 0 before the
first epoch, so its entire result — in particular the sequence of
shuffled orders and batches — is independent of the ambient PRNG state at
entry: two runs on the same data coincide, and the schedule equals the one
generated from the seeded state. -/
theorem C8_deterministic_schedule (nlp : Nlp) (d : List Ex) (od : Option Path)
    (w : World) (r0 r1 : Nat) :
    train_ner nlp d od w r0 = train_ner nlp d od w r1 ∧
    (train_ner nlp d od w r0).epochs = (runEpochs 50 d (seedState 0)).1 :=
  ⟨rfl, train_ner_epochs nlp d od w r0⟩

/-- C9: `get_gold_parses` shuffles the caller's list in place, so the
`train_data` list as seen after `train_ner` returns is a permutation of
the original — same multiset, possibly different order; on the script's
actual data the order does change. -/
theorem C9_shuffle_in_place (nlp : Nlp) (d : List Ex) (od : Option Path)
    (w : World) (r0 : Nat) :
    ((train_ner nlp d od w r0).train_data).Perm d ∧
    (train_ner (spacy_blank "en") train_data none ⟨[], []⟩ 0).train_data ≠
      train_data := by
  constructor
  · rw [train_ner_data]
    exact runEpochs_snd_perm 50 d (seedState 0)
  · decide

/-- C10: `train_ner` unconditionally sets the pipeline's metadata name to
`en_ent_animal` before the training loop, in every run and whether or not
an output directory is supplied. -/
theorem C10_meta_name (nlp : Nlp) (d : List Ex) (od : Option Path)
    (w : World) (r0 : Nat) :
    (train_ner nlp d od w r0).nlp.meta_name = some "en_ent_animal" := by
  rw [train_ner_nlp]

end SpacyEx
